import Mathlib

set_option maxHeartbeats 1000000

/-!
Verification of the `search_do` Netlify function (`search_do.js` and
`googleSearch.js`): a shallow embedding of its data model and operations,
with theorems settling the frozen behavioural claims.

Strings are modelled as Lean `String`/`List Char` (code points; the source
operates on JS strings, identical on the BMP inputs at stake).  JS truthiness
on strings is modelled as non-emptiness, `undefined` fields as `Option`.
-/

/-! ### Characters used by `cleanupText`, written via code points -/

def backtickChar : Char := Char.ofNat 96

def apostropheChar : Char := Char.ofNat 39

def lbraceChar : Char := Char.ofNat 123

def rbraceChar : Char := Char.ofNat 125

/-! ### `cleanupText` (search_do.js lines 40-50)

`text.replace(/`→'/g)` followed by the global replacement of the markdown-link
regex `\[([^\]]+)\]\([^\)]*?(?:\x7b\x7b[^\x7d]+\x7d[^\)]*)?(?:\)|$)/g` by its
first capture group.  The regex engine's backtracking is deterministic here:
the greedy `[^\]]+` must stop at the first `]` (a literal `\]` follows), the
lazy `[^\)]*?` extends one character at a time, trying at each position first
the optional `\x7b\x7b[^\x7d]+\x7d[^\)]*` group and then `\)|$`. -/

/-- The optional `\x7b\x7b[^\x7d]+\x7d[^\)]*` group followed by `\)|$`:
at the current position, match `\x7b\x7b`, a nonempty run of non-`\x7d`,
a `\x7d`, then all non-`)` and a closing `)` (or end of input).
Returns the rest of the input after the whole regex match. -/
def matchBrace (cs : List Char) : Option (List Char) :=
  match cs with
  | c1 :: c2 :: rest =>
    if c1 = lbraceChar ∧ c2 = lbraceChar then
      let content := rest.takeWhile (fun c => c != rbraceChar)
      let rest2 := rest.dropWhile (fun c => c != rbraceChar)
      if content.isEmpty then none
      else
        match rest2 with
        | [] => none
        | _ :: rest3 =>
          match rest3.dropWhile (fun c => c != ')') with
          | [] => some []
          | _ :: rest5 => some rest5
    else none
  | _ => none

/-- The tail `[^\)]*?(?:\x7b\x7b[^\x7d]+\x7d[^\)]*)?(?:\)|$)` of the link
regex, after the opening `(`: lazily consume non-`)` characters, at each
position trying the optional braces group first, then a closing `)`,
and accepting the end of input.  Returns the rest after the match. -/
def matchTail : List Char → Option (List Char)
  | [] => some []
  | c :: rest =>
    match matchBrace (c :: rest) with
    | some r => some r
    | none => if c = ')' then some rest else matchTail rest

/-- One attempt of the full link regex at the current position:
`\[`, a nonempty label of non-`]`, `\]`, `\(`, then the tail.
Returns the capture (label) and the rest after the match. -/
def matchLink (cs : List Char) : Option (List Char × List Char) :=
  match cs with
  | c :: rest =>
    if c = '[' then
      let label := rest.takeWhile (fun x => x != ']')
      let rest2 := rest.dropWhile (fun x => x != ']')
      if label.isEmpty then none
      else
        match rest2 with
        | _ :: p :: rest3 =>
          if p = '(' then
            match matchTail rest3 with
            | some r => some (label, r)
            | none => none
          else none
        | _ => none
    else none
  | [] => none

/-- Global replacement by the first capture group, scanning left to right as
`String.prototype.replace` with the `g` flag does.  Every match consumes at
least one character, so `cs.length` steps of fuel always suffice. -/
def replaceLinksAux : Nat → List Char → List Char
  | 0, cs => cs
  | Nat.succ fuel, cs =>
    match matchLink cs with
    | some (label, rest) => label ++ replaceLinksAux fuel rest
    | none =>
      match cs with
      | [] => []
      | c :: rest => c :: replaceLinksAux fuel rest

def replaceLinks (cs : List Char) : List Char := replaceLinksAux cs.length cs

/-- `text.replace(/backtick/g, apostrophe)`. -/
def replaceBackticks (cs : List Char) : List Char :=
  cs.map (fun c => if c = backtickChar then apostropheChar else c)

/-- `cleanupText` of search_do.js: backticks to apostrophes, then the
markdown-link regex replaced by its label, globally. -/
def cleanupText (s : String) : String :=
  String.mk (replaceLinks (replaceBackticks s.data))

/-! ### Lemmas about `cleanupText` -/

theorem matchBrace_suffix (cs r : List Char) (h : matchBrace cs = some r) :
    r <:+ cs := by
  match cs with
  | [] => simp [matchBrace] at h
  | [c1] => simp [matchBrace] at h
  | c1 :: c2 :: rest =>
    have hsub : ∀ x : List Char, x <:+ rest → x <:+ c1 :: c2 :: rest := fun x hx =>
      (hx.trans (List.suffix_cons c2 rest)).trans (List.suffix_cons c1 (c2 :: rest))
    simp only [matchBrace] at h
    split at h
    · split at h
      · exact absurd h (by simp)
      · split at h
        · exact absurd h (by simp)
        · rename_i b rest3 hdw
          have hr3 : rest3 <:+ rest :=
            (List.suffix_cons b rest3).trans (hdw ▸ List.dropWhile_suffix _)
          split at h
          · rename_i hdw2
            cases h
            exact hsub _ List.nil_suffix
          · rename_i d rest5 hdw2
            have h5 : rest5 <:+ rest3 :=
              (List.suffix_cons d rest5).trans (hdw2 ▸ List.dropWhile_suffix _)
            cases h
            exact hsub _ (h5.trans hr3)
    · exact absurd h (by simp)

theorem matchTail_suffix : ∀ (cs r : List Char), matchTail cs = some r → r <:+ cs := by
  intro cs
  induction cs with
  | nil => intro r h; simp [matchTail] at h; simp [← h]
  | cons c rest ih =>
    intro r h
    simp only [matchTail] at h
    split at h
    next r' hbr =>
      cases h
      exact matchBrace_suffix _ _ hbr
    next hbr =>
      split at h
      · cases h; exact List.suffix_cons c rest
      · exact (ih r h).trans (List.suffix_cons c rest)

theorem matchLink_mem (cs label rest : List Char)
    (h : matchLink cs = some (label, rest)) :
    (∀ c ∈ label, c ∈ cs) ∧ ∀ c ∈ rest, c ∈ cs := by
  match cs with
  | [] => simp [matchLink] at h
  | c :: tl =>
    simp only [matchLink] at h
    split at h
    · split at h
      · exact absurd h (by simp)
      · split at h
        next x p rest3 hdrop =>
          split at h
          · split at h
            next r htail =>
              cases h
              constructor
              · intro a ha
                exact List.mem_cons_of_mem c ((List.takeWhile_prefix _).subset ha)
              · intro a ha
                have h3 : rest3 <:+ tl := by
                  have h1 : x :: p :: rest3 <:+ tl := by
                    rw [← hdrop]; exact List.dropWhile_suffix _
                  exact ((List.suffix_cons p rest3).trans
                    (List.suffix_cons x (p :: rest3))).trans h1
                exact List.mem_cons_of_mem c
                  (h3.subset ((matchTail_suffix _ _ htail).subset ha))
            next => exact absurd h (by simp)
          · exact absurd h (by simp)
        next => exact absurd h (by simp)
    · exact absurd h (by simp)

theorem matchLink_rest_length (cs label rest : List Char)
    (h : matchLink cs = some (label, rest)) : rest.length < cs.length := by
  match cs with
  | [] => simp [matchLink] at h
  | c :: tl =>
    simp only [matchLink] at h
    split at h
    · split at h
      · exact absurd h (by simp)
      · split at h
        next x p rest3 hdrop =>
          split at h
          · split at h
            next r htail =>
              cases h
              have h3 : rest3.length + 2 ≤ tl.length := by
                have h1 : (x :: p :: rest3).length ≤ tl.length := by
                  rw [← hdrop]; exact (List.dropWhile_suffix _).length_le
                simpa using h1
              have h4 : rest.length ≤ rest3.length :=
                (matchTail_suffix _ _ htail).length_le
              simp only [List.length_cons]
              omega
            next => exact absurd h (by simp)
          · exact absurd h (by simp)
        next => exact absurd h (by simp)
    · exact absurd h (by simp)

theorem replaceLinksAux_subset :
    ∀ (fuel : Nat) (cs : List Char) (c : Char), c ∈ replaceLinksAux fuel cs → c ∈ cs := by
  intro fuel
  induction fuel with
  | zero => intro cs c h; simpa [replaceLinksAux] using h
  | succ n ih =>
    intro cs c h
    simp only [replaceLinksAux] at h
    split at h
    next label rest hml =>
      rcases List.mem_append.mp h with h1 | h1
      · exact (matchLink_mem _ _ _ hml).1 c h1
      · exact (matchLink_mem _ _ _ hml).2 c (ih rest c h1)
    next hml =>
      match cs, h with
      | [], h => simp at h
      | a :: rest, h =>
        rcases List.mem_cons.mp h with h1 | h1
        · simp [h1]
        · exact List.mem_cons_of_mem a (ih rest c h1)

theorem matchLink_none_of_no_bracket (cs : List Char) (h : '[' ∉ cs) :
    matchLink cs = none := by
  match cs with
  | [] => rfl
  | c :: tl =>
    have hc : ¬ c = '[' := by
      intro hh; exact h (hh ▸ List.mem_cons_self c tl)
    simp [matchLink, hc]

theorem replaceLinksAux_id_of_no_bracket :
    ∀ (fuel : Nat) (cs : List Char), '[' ∉ cs → replaceLinksAux fuel cs = cs := by
  intro fuel
  induction fuel with
  | zero => intro cs _; rfl
  | succ n ih =>
    intro cs h
    simp only [replaceLinksAux, matchLink_none_of_no_bracket cs h]
    match cs with
    | [] => rfl
    | c :: rest =>
      have hr : '[' ∉ rest := fun hm => h (List.mem_cons_of_mem c hm)
      simp [ih rest hr]

theorem replaceBackticks_no_backtick (cs : List Char) :
    backtickChar ∉ replaceBackticks cs := by
  intro h
  simp only [replaceBackticks, List.mem_map] at h
  obtain ⟨c, _, hc⟩ := h
  by_cases hcb : c = backtickChar
  · rw [if_pos hcb] at hc
    exact absurd hc (by decide)
  · rw [if_neg hcb] at hc
    exact hcb hc

theorem replaceBackticks_id_of_no_backtick (cs : List Char)
    (h : backtickChar ∉ cs) : replaceBackticks cs = cs := by
  induction cs with
  | nil => rfl
  | cons c rest ih =>
    have hc : ¬ c = backtickChar := by
      intro hh; exact h (hh ▸ List.mem_cons_self c rest)
    have hr : backtickChar ∉ rest := fun hm => h (List.mem_cons_of_mem c hm)
    simp only [replaceBackticks, List.map_cons, if_neg hc]
    have := ih hr
    simpa [replaceBackticks] using this

/-- C1 (counterexample): `cleanupText` is not idempotent.  On
`"[x[a](b)y](z)"` the first pass strips the inner-bracket link and yields
`"x[ay](z)"`, which the second pass rewrites again to `"xay"`. -/
theorem cleanupText_not_idempotent :
    cleanupText (cleanupText "[x[a](b)y](z)") ≠ cleanupText "[x[a](b)y](z)" := by
  decide

/-- C1 (amended): text cleanup is idempotent on every input whose cleaned form
contains no opening square bracket: if `cleanupText s` has no character `[`,
then applying cleanup a second time changes nothing (the backtick pass is
always idempotent; only a re-exposed markdown-link shape can change a second
pass, and that needs a `[`). -/
theorem cleanupText_idempotent_of_no_bracket (s : String)
    (h : '[' ∉ (cleanupText s).data) :
    cleanupText (cleanupText s) = cleanupText s := by
  have hnb : backtickChar ∉ (cleanupText s).data := by
    intro hmem
    exact replaceBackticks_no_backtick s.data
      (replaceLinksAux_subset _ _ _ hmem)
  show String.mk (replaceLinks (replaceBackticks (cleanupText s).data)) = cleanupText s
  rw [replaceBackticks_id_of_no_backtick _ hnb]
  show String.mk (replaceLinksAux (cleanupText s).data.length (cleanupText s).data)
    = cleanupText s
  rw [replaceLinksAux_id_of_no_bracket _ _ h]

/-- C1 witness: the amended idempotence theorem applied at the concrete input
`"a(b)[c] d"` (its cleaned form has no `[`: the link-like text is rewritten). -/
theorem cleanupText_idempotent_witness :
    cleanupText (cleanupText "pre [lbl](url) post") = cleanupText "pre [lbl](url) post" :=
  cleanupText_idempotent_of_no_bracket "pre [lbl](url) post" (by decide)

/-! ### `encodeURIComponent` (used by `createResult` and the playground link)

Percent-encodes every character outside `A-Z a-z 0-9 - _ . ! ~ * ' ( )`,
non-ASCII characters via their UTF-8 bytes, hex digits uppercase. -/

def hexDigitChar (n : Nat) : Char :=
  if n < 10 then Char.ofNat (48 + n) else Char.ofNat (55 + n)

def percentEncodeByte (b : Nat) : List Char :=
  ['%', hexDigitChar (b / 16), hexDigitChar (b % 16)]

/-- The UTF-8 bytes of one character. -/
def utf8Bytes (c : Char) : List Nat :=
  let n := c.toNat
  if n < 128 then [n]
  else if n < 2048 then [192 ||| (n >>> 6), 128 ||| (n &&& 63)]
  else if n < 65536 then
    [224 ||| (n >>> 12), 128 ||| ((n >>> 6) &&& 63), 128 ||| (n &&& 63)]
  else
    [240 ||| (n >>> 18), 128 ||| ((n >>> 12) &&& 63),
      128 ||| ((n >>> 6) &&& 63), 128 ||| (n &&& 63)]

def isUnreservedURIChar (c : Char) : Bool :=
  c.isAlpha || c.isDigit ||
    (['-', '_', '.', '!', '~', '*', apostropheChar, '(', ')']).contains c

def encodeURIChar (c : Char) : List Char :=
  if isUnreservedURIChar c then [c] else (utf8Bytes c).flatMap percentEncodeByte

def encodeURIComponent (s : String) : String :=
  String.mk (s.data.flatMap encodeURIChar)

/-! ### `parseInt` (radix unspecified, as the handler calls it) -/

def decDigitVal (c : Char) : Option Nat :=
  if 48 ≤ c.toNat ∧ c.toNat ≤ 57 then some (c.toNat - 48) else none

def hexDigitVal (c : Char) : Option Nat :=
  if 48 ≤ c.toNat ∧ c.toNat ≤ 57 then some (c.toNat - 48)
  else if 65 ≤ c.toNat ∧ c.toNat ≤ 70 then some (c.toNat - 55)
  else if 97 ≤ c.toNat ∧ c.toNat ≤ 102 then some (c.toNat - 87)
  else none

def parseDigitsAux (dv : Char → Option Nat) (radix : Nat) : List Char → Nat → Nat
  | [], acc => acc
  | c :: cs, acc =>
    match dv c with
    | some d => parseDigitsAux dv radix cs (acc * radix + d)
    | none => acc

/-- JS `parseInt(s)` with no radix argument: leading whitespace skipped, an
optional sign, a `0x`/`0X` prefix selecting base 16, then the longest run of
digits (trailing garbage ignored); `none` models `NaN` (no digit found). -/
def parseIntJS (s : String) : Option Int :=
  let cs := s.data.dropWhile Char.isWhitespace
  let signed : Int × List Char :=
    match cs with
    | '-' :: rest => (-1, rest)
    | '+' :: rest => (1, rest)
    | _ => (1, cs)
  let based : (Char → Option Nat) × Nat × List Char :=
    match signed.2 with
    | '0' :: 'x' :: rest => (hexDigitVal, 16, rest)
    | '0' :: 'X' :: rest => (hexDigitVal, 16, rest)
    | _ => (decDigitVal, 10, signed.2)
  match based.2.2 with
  | [] => none
  | c :: _ =>
    match based.1 c with
    | some _ => some (signed.1 * (parseDigitsAux based.1 based.2.1 based.2.2 0 : Nat))
    | none => none

/-- `String.prototype.trim`: whitespace stripped from both ends. -/
def jsTrim (s : String) : String :=
  String.mk (((s.data.dropWhile Char.isWhitespace).reverse.dropWhile
    Char.isWhitespace).reverse)

/-! ### `String.prototype.lastIndexOf` for one character -/

def lastIndexOfAux (c : Char) : List Char → Nat → Option Nat → Option Nat
  | [], _, acc => acc
  | x :: xs, i, acc => lastIndexOfAux c xs (i + 1) (if x = c then some i else acc)

/-- `s.lastIndexOf(c)`: the greatest index of `c` in `s`, `-1` when absent. -/
def jsLastIndexOf (s : String) (c : Char) : Int :=
  match lastIndexOfAux c s.data 0 none with
  | some i => (i : Int)
  | none => -1

/-! ### `COMPONENT_REFERENCE_DOC_PATTERN` (search_do.js lines 29-30)

`^(?:https?://[^/]+)?(?:/[^/]+)?/documentation/components/(amp-[^/]+)`.
Anchored at the start; the optional scheme+host and optional single path
segment backtrack in order (group present first, then absent); the greedy
`[^/]+` runs are forced, since each is followed by a literal `/`.
The value returned is the first capture group, `amp-<name>`. -/

def stripPrefixList : List Char → List Char → Option (List Char)
  | [], cs => some cs
  | _ :: _, [] => none
  | p :: ps, c :: cs => if c = p then stripPrefixList ps cs else none

def takeNonSlash (cs : List Char) : List Char := cs.takeWhile (fun c => c != '/')

def dropNonSlash (cs : List Char) : List Char := cs.dropWhile (fun c => c != '/')

/-- The mandatory part `/documentation/components/(amp-[^/]+)`; returns the
capture group. -/
def matchCompTail (cs : List Char) : Option (List Char) :=
  match stripPrefixList "/documentation/components/amp-".data cs with
  | some rest =>
    let name := takeNonSlash rest
    if name.isEmpty then none else some ("amp-".data ++ name)
  | none => none

/-- `(?:/[^/]+)?` then the mandatory part: try the segment first, as the
regex engine does, then without it. -/
def matchCompSeg (cs : List Char) : Option (List Char) :=
  let withSeg : Option (List Char) :=
    match cs with
    | '/' :: rest =>
      if (takeNonSlash rest).isEmpty then none else matchCompTail (dropNonSlash rest)
    | _ => none
  withSeg <|> matchCompTail cs

/-- `https?://`: literal `http`, greedy optional `s`, `://`. -/
def matchCompScheme (cs : List Char) : Option (List Char) :=
  match stripPrefixList "https://".data cs with
  | some rest => some rest
  | none => stripPrefixList "http://".data cs

/-- The whole pattern: `(?:https?://[^/]+)?` (host = nonempty run of
non-`/`), then segment and mandatory part.  Returns the capture group. -/
def componentMatchList (cs : List Char) : Option (List Char) :=
  let withHost : Option (List Char) :=
    match matchCompScheme cs with
    | some rest =>
      if (takeNonSlash rest).isEmpty then none else matchCompSeg (dropNonSlash rest)
    | none => none
  withHost <|> matchCompSeg cs

/-- `url.match(COMPONENT_REFERENCE_DOC_PATTERN)` restricted to the first
capture group; `.test` is `(componentMatch url).isSome`. -/
def componentMatch (s : String) : Option String :=
  (componentMatchList s.data).map String.mk

/-! ### Constants (search_do.js lines 24-37, googleSearch.js lines 23-31) -/

def DESCRIPTION_META_TAG : String := "twitter:description"

def PAGE_SIZE : Nat := 10

def MAX_PAGE : Int := 10

def LAST_PAGE : Int := MAX_PAGE

def MAX_HIGHLIGHT_COMPONENTS : Nat := 3

def MAX_HIGHLIGHT_COMPONENT_INDEX : Nat := 7

def DEFAULT_LOCALE : String := "en"

def RESPONSE_MAX_AGE_SEARCH : Nat := 60 * 60

def CSE_ID : String := "a1a3679a4a68c41f5"

/-! ### Data model

A CSE result item: `title`, `snippet`, `link` may be absent (`undefined`),
`pagemap.metatags` is a list of string-keyed dictionaries, modelled as
association lists. -/

structure Pagemap where
  metatags : List (List (String × String))
deriving Repr, DecidableEq

structure CseItem where
  title : Option String := none
  snippet : Option String := none
  link : Option String := none
  pagemap : Option Pagemap := none
deriving Repr, DecidableEq

/-- The display-ready record built from one item. -/
structure Page where
  title : String
  description : String
  url : String
  exampleUrl : Option String := none
  playgroundUrl : Option String := none
deriving Repr, DecidableEq

/-- `getCseItemMetaTagValue` (search_do.js lines 58-70): the value of the
meta tag in `pagemap.metatags[0]`, provided it is truthy (a present,
nonempty string); otherwise `null`. -/
def getCseItemMetaTagValue (item : CseItem) (metaTag : String) : Option String :=
  match item.pagemap with
  | none => none
  | some pm =>
    match pm.metatags with
    | [] => none
    | mt0 :: _ =>
      match List.lookup metaTag mt0 with
      | some v => if v.isEmpty then none else some v
      | none => none

/-- `createPageObject` (lines 73-79): `item.title || ''` etc. -/
def createPageObject (item : CseItem) : Page :=
  { title := item.title.getD "",
    description := item.snippet.getD "",
    url := item.link.getD "" }

/-- `addExampleAndPlaygroundLink` (lines 82-89). -/
def addExampleAndPlaygroundLink (page : Page) (locale : String) : Page :=
  match componentMatch page.url with
  | some componentName =>
    { page with
      exampleUrl := some ("/" ++ locale ++ "/documentation/examples/?q=" ++ componentName),
      playgroundUrl := some ("https://playground.amp.dev/#url=" ++ encodeURIComponent page.url) }
  | none => page

/-- First statement of `enrichComponentPageObject` (lines 92-95): override
the description with the truthy `twitter:description` meta tag value. -/
def enrichDescription (item : CseItem) (page : Page) : Page :=
  match getCseItemMetaTagValue item DESCRIPTION_META_TAG with
  | some d => { page with description := d }
  | none => page

/-- Second statement (lines 97-103): when the title is truthy, cut it after
its last `:` provided that colon sits past position 0 with at least one
character following it, trimming the remainder. -/
def enrichTitle (page : Page) : Page :=
  if page.title.isEmpty then page
  else if 0 < jsLastIndexOf page.title ':' ∧
      jsLastIndexOf page.title ':' + 1 < (page.title.length : Int) then
    { page with
      title :=
        jsTrim (String.mk (page.title.data.drop ((jsLastIndexOf page.title ':').toNat + 1))) }
  else page

/-- `enrichComponentPageObject` (lines 91-106): the three statements in
source order. -/
def enrichComponentPageObject (item : CseItem) (page : Page) (locale : String) : Page :=
  addExampleAndPlaygroundLink (enrichTitle (enrichDescription item page)) locale

/-- `cleanupTexts` (lines 53-56). -/
def cleanupTexts (page : Page) : Page :=
  { page with
    title := cleanupText page.title,
    description := cleanupText page.description }

/-! ### The handler's classification loop (search_do.js lines 211-234)

The JS loop mutates `page` after pushing it; since the pushed reference and
the mutated object are the same, the model applies `cleanupTexts` before the
push, which yields the same final arrays. -/

structure LoopState where
  highlight : Bool
  componentCount : Nat
  components : List Page
  pages : List Page
deriving Repr, DecidableEq

/-- One iteration of the loop, for the item at index `i` of the batch:
build the page object, classify it (still highlighting, index within the
first 8, URL matches the component pattern), enrich and count a component
or keep a plain page, stop highlighting at 3 components, clean the texts. -/
def processItem (locale : String) (st : LoopState) (i : Nat) (item : CseItem) :
    LoopState :=
  if st.highlight = true ∧ i ≤ MAX_HIGHLIGHT_COMPONENT_INDEX ∧
      (componentMatch (createPageObject item).url).isSome = true then
    { highlight :=
        if MAX_HIGHLIGHT_COMPONENTS ≤ st.componentCount + 1 then false else st.highlight,
      componentCount := st.componentCount + 1,
      components := st.components ++
        [cleanupTexts (enrichComponentPageObject item (createPageObject item) locale)],
      pages := st.pages }
  else
    { st with pages := st.pages ++ [cleanupTexts (createPageObject item)] }

def runItems (locale : String) : LoopState → Nat → List CseItem → LoopState
  | st, _, [] => st
  | st, i, item :: rest => runItems locale (processItem locale st i item) (i + 1) rest

/-- The whole loop: `highlightComponents` starts true iff the requested page
is 1; returns (components, pages). -/
def processItems (items : List CseItem) (pg : Int) (locale : String) :
    List Page × List Page :=
  let final := runItems locale
    { highlight := pg == 1, componentCount := 0, components := [], pages := [] } 0 items
  (final.components, final.pages)

/-! ### Search options and the outbound request (handler lines 150-162,
googleSearch.js lines 52-69) -/

structure SearchOptions where
  hiddenQuery : String := ""
  noLanguageFilter : Bool := false
deriving Repr, DecidableEq

def localeClause (locale : String) : String :=
  "more:pagemap:metatags-page-locale:" ++ locale

/-- The options the handler builds: the hidden query constrains the locale;
a non-default locale ORs in the default locale's clause and disables the
language filter. -/
def buildSearchOptions (locale : String) : SearchOptions :=
  let opts : SearchOptions := { hiddenQuery := localeClause locale }
  if locale ≠ DEFAULT_LOCALE then
    { hiddenQuery := localeClause DEFAULT_LOCALE ++ " OR " ++ opts.hiddenQuery,
      noLanguageFilter := true }
  else opts

/-- The query parameters `googleSearch.search` sets on the outbound URL, in
order: `cx`, `key`, `hl`, `q`, `start`; `lr` unless `noLanguageFilter`;
`hq` when the hidden query is truthy. -/
def buildSearchParams (query locale : String) (page : Int) (options : SearchOptions)
    (apiKey : String) : List (String × String) :=
  let startIndex := (page - 1) * (PAGE_SIZE : Int) + 1
  let language := if 2 < locale.length then String.mk (locale.data.take 2) else locale
  [("cx", CSE_ID), ("key", apiKey), ("hl", language), ("q", query),
    ("start", toString startIndex)] ++
  (if options.noLanguageFilter = false then [("lr", "lang_" ++ language)] else []) ++
  (if options.hiddenQuery.isEmpty = false then [("hq", options.hiddenQuery)] else [])

/-! ### The response envelope (`createResult`, search_do.js lines 108-141)

`createResult` builds the object and `JSON.stringify`s it; the claims are
about the object's fields, so the embedding returns the object. `isTruncated`,
`nextUrl` and `prevUrl` model absent JS properties as `none`. -/

structure SearchResultInner where
  totalResults : Nat
  currentPage : Int
  pageCount : Int
  components : List Page
  pages : List Page
  isTruncated : Option Bool := none
deriving Repr, DecidableEq

structure SearchResult where
  result : SearchResultInner
  initial : Bool := false
  nextUrl : Option String := none
  prevUrl : Option String := none
deriving Repr, DecidableEq

def searchBaseUrl (query locale : String) : String :=
  "/search/do?q=" ++ encodeURIComponent query ++
    "&locale=" ++ encodeURIComponent locale ++ "&page="

def createResult (totalResults : Nat) (page lastPage : Int)
    (components pages : List Page) (query locale : String) : SearchResult :=
  let base : SearchResult :=
    { result :=
        { totalResults := totalResults, currentPage := page, pageCount := lastPage,
          components := components, pages := pages },
      initial := false }
  let base :=
    if page = LAST_PAGE ∧ LAST_PAGE < lastPage then
      { base with result := { base.result with isTruncated := some true } }
    else base
  let base :=
    if page < lastPage ∧ page < LAST_PAGE then
      { base with nextUrl := some (searchBaseUrl query locale ++ toString (page + 1)) }
    else base
  if 1 < page then
    { base with prevUrl := some (searchBaseUrl query locale ++ toString (page - 1)) }
  else base

/-- `Math.ceil(totalResults / PAGE_SIZE)` on exact arithmetic. -/
def computePageCount (totalResults : Nat) : Int :=
  ⌈(totalResults : ℚ) / (PAGE_SIZE : ℚ)⌉

/-! ### The handler (search_do.js lines 143-253)

The inbound event carries the query-string parameters and the `Origin`
header; the search client is passed in as a function so that its behaviour
can be quantified over (in JS it is the awaited `googleSearch.search`,
`failure` standing for a rejected promise). -/

structure Event where
  q : Option String := none
  locale : Option String := none
  page : Option String := none
  origin : Option String := none
deriving Repr, DecidableEq

structure SearchInformation where
  totalResults : Nat
deriving Repr, DecidableEq

structure CseResult where
  searchInformation : SearchInformation
  items : List CseItem
deriving Repr, DecidableEq

inductive SearchOutcome where
  | success (r : CseResult)
  | failure (errMsg : String)
deriving Repr, DecidableEq

/-- The body of the handler's HTTP response: `errorObj msg` stands for
`JSON.stringify(\x7b error: msg \x7d)`, `envelope env` for the stringified
`SearchResult`, `plainText` for the 500 path's plain string. -/
inductive HandlerBody where
  | errorObj (msg : String)
  | plainText (msg : String)
  | envelope (env : SearchResult)
deriving Repr, DecidableEq

structure HandlerResponse where
  statusCode : Nat
  accessControlAllowOrigin : String
  contentType : String
  cacheControl : String
  body : HandlerBody
deriving Repr, DecidableEq

/-- `searchQuery.locale ? searchQuery.locale : DEFAULT_LOCALE` (truthiness:
a present, nonempty string). -/
def parsedLocale (ev : Event) : String :=
  match ev.locale with
  | some l => if l.isEmpty then DEFAULT_LOCALE else l
  | none => DEFAULT_LOCALE

/-- `searchQuery.page ? parseInt(searchQuery.page) : 1`; `none` is `NaN`. -/
def parsedPage (ev : Event) : Option Int :=
  match ev.page with
  | some p => if p.isEmpty then some 1 else parseIntJS p
  | none => some 1

/-- `searchQuery.q ? searchQuery.q.trim() : ''`. -/
def parsedQuery (ev : Event) : String :=
  match ev.q with
  | some s => if s.isEmpty then "" else jsTrim s
  | none => ""

/-- How string concatenation prints an absent (`undefined`) parameter. -/
def jsShowOpt : Option String → String
  | some s => s
  | none => "undefined"

/-- The invalid-request message (lines 166-171), built from the raw `q` and
`page` parameters. -/
def invalidMsg (ev : Event) : String :=
  "Invalid search params (q=" ++ jsShowOpt ev.q ++ ", page=" ++ jsShowOpt ev.page ++ ")"

/-- `isNaN(page) || page < 1 || query.length == 0` (line 165). -/
def requestInvalid (ev : Event) : Bool :=
  match parsedPage ev with
  | none => true
  | some pg => decide (pg < 1) || (parsedQuery ev).isEmpty

def invalidResponse (ev : Event) : HandlerResponse :=
  { statusCode := 200,
    accessControlAllowOrigin := (ev.origin).getD "*",
    contentType := "application/json",
    cacheControl := "no-cache",
    body := HandlerBody.errorObj (invalidMsg ev) }

def handler (ev : Event)
    (searchFn : String → String → Int → SearchOptions → SearchOutcome) :
    HandlerResponse :=
  let locale := parsedLocale ev
  let query := parsedQuery ev
  let searchOptions := buildSearchOptions locale
  match parsedPage ev with
  | none => invalidResponse ev
  | some pg =>
    if pg < 1 ∨ query.isEmpty = true then invalidResponse ev
    else
      match searchFn query locale pg searchOptions with
      | SearchOutcome.failure e =>
        { statusCode := 500,
          accessControlAllowOrigin := (ev.origin).getD "*",
          contentType := "text/plain",
          cacheControl := "no-cache",
          body := HandlerBody.plainText e }
      | SearchOutcome.success r =>
        let totalResults := r.searchInformation.totalResults
        let pageCount := computePageCount totalResults
        let processed :=
          if 0 < totalResults then processItems r.items pg locale else ([], [])
        { statusCode := 200,
          accessControlAllowOrigin := (ev.origin).getD "*",
          contentType := "application/json",
          cacheControl := "max-age=" ++ toString RESPONSE_MAX_AGE_SEARCH ++ ", immutable",
          body := HandlerBody.envelope
            (createResult totalResults pg pageCount processed.1 processed.2 query locale) }

/-! ### The search client (`googleSearch.search`, googleSearch.js lines 44-83)

`fetch` is the injected HTTP layer.  The pair's second component records
whether the network was consulted.  An empty `apiKey` models the falsy
(unset or empty) environment variable. -/

structure FetchResponse where
  ok : Bool
  status : Nat
  bodyText : String
  json : CseResult
deriving Repr, DecidableEq

def apiKeyErrorMsg : String :=
  "Custom search api key not initialized! " ++
    "Set GOOGLE_CUSTOM_SEARCH_API_KEY in Netlify environment variables."

def invalidResponseMsg : String := "Invalid response for search query"

def search (apiKey : String) (query locale : String) (page : Int)
    (options : SearchOptions) (fetch : List (String × String) → FetchResponse) :
    Except String CseResult × Bool :=
  if apiKey.isEmpty then (Except.error apiKeyErrorMsg, false)
  else
    let resp := fetch (buildSearchParams query locale page options apiKey)
    if resp.ok then (Except.ok resp.json, true)
    else (Except.error invalidResponseMsg, true)

/-! ### Field-preservation lemmas for the enrichment steps -/

theorem enrichDescription_url (item : CseItem) (page : Page) :
    (enrichDescription item page).url = page.url := by
  unfold enrichDescription
  cases getCseItemMetaTagValue item DESCRIPTION_META_TAG <;> rfl

theorem enrichDescription_title (item : CseItem) (page : Page) :
    (enrichDescription item page).title = page.title := by
  unfold enrichDescription
  cases getCseItemMetaTagValue item DESCRIPTION_META_TAG <;> rfl

theorem enrichDescription_description (item : CseItem) (page : Page) :
    (enrichDescription item page).description =
      (getCseItemMetaTagValue item DESCRIPTION_META_TAG).getD page.description := by
  unfold enrichDescription
  cases getCseItemMetaTagValue item DESCRIPTION_META_TAG <;> rfl

theorem enrichDescription_exampleUrl (item : CseItem) (page : Page) :
    (enrichDescription item page).exampleUrl = page.exampleUrl := by
  unfold enrichDescription
  cases getCseItemMetaTagValue item DESCRIPTION_META_TAG <;> rfl

theorem enrichDescription_playgroundUrl (item : CseItem) (page : Page) :
    (enrichDescription item page).playgroundUrl = page.playgroundUrl := by
  unfold enrichDescription
  cases getCseItemMetaTagValue item DESCRIPTION_META_TAG <;> rfl

theorem enrichTitle_url (page : Page) : (enrichTitle page).url = page.url := by
  unfold enrichTitle
  split
  · rfl
  · split <;> rfl

theorem enrichTitle_description (page : Page) :
    (enrichTitle page).description = page.description := by
  unfold enrichTitle
  split
  · rfl
  · split <;> rfl

theorem enrichTitle_exampleUrl (page : Page) :
    (enrichTitle page).exampleUrl = page.exampleUrl := by
  unfold enrichTitle
  split
  · rfl
  · split <;> rfl

theorem enrichTitle_playgroundUrl (page : Page) :
    (enrichTitle page).playgroundUrl = page.playgroundUrl := by
  unfold enrichTitle
  split
  · rfl
  · split <;> rfl

theorem jsLastIndexOf_empty (c : Char) : jsLastIndexOf "" c = -1 := rfl

/-- The title step characterised without the truthiness guard: an empty
title has no colon, so the guard merges with the colon condition. -/
theorem enrichTitle_title (page : Page) :
    (enrichTitle page).title =
      if 0 < jsLastIndexOf page.title ':' ∧
          jsLastIndexOf page.title ':' + 1 < (page.title.length : Int) then
        jsTrim (String.mk (page.title.data.drop ((jsLastIndexOf page.title ':').toNat + 1)))
      else page.title := by
  unfold enrichTitle
  split
  · rename_i hemp
    have htitle : page.title = "" := (String.isEmpty_iff page.title).mp hemp
    rw [htitle]
    simp [jsLastIndexOf_empty]
  · split
    · rename_i hcond
      simp [hcond]
    · rename_i hcond
      simp [hcond]

theorem addExampleAndPlaygroundLink_title (page : Page) (locale : String) :
    (addExampleAndPlaygroundLink page locale).title = page.title := by
  unfold addExampleAndPlaygroundLink
  cases componentMatch page.url <;> rfl

theorem addExampleAndPlaygroundLink_description (page : Page) (locale : String) :
    (addExampleAndPlaygroundLink page locale).description = page.description := by
  unfold addExampleAndPlaygroundLink
  cases componentMatch page.url <;> rfl

theorem addExampleAndPlaygroundLink_exampleUrl (page : Page) (locale : String) :
    (addExampleAndPlaygroundLink page locale).exampleUrl =
      match componentMatch page.url with
      | some componentName =>
        some ("/" ++ locale ++ "/documentation/examples/?q=" ++ componentName)
      | none => page.exampleUrl := by
  unfold addExampleAndPlaygroundLink
  cases componentMatch page.url <;> rfl

theorem addExampleAndPlaygroundLink_playgroundUrl (page : Page) (locale : String) :
    (addExampleAndPlaygroundLink page locale).playgroundUrl =
      match componentMatch page.url with
      | some _ =>
        some ("https://playground.amp.dev/#url=" ++ encodeURIComponent page.url)
      | none => page.playgroundUrl := by
  unfold addExampleAndPlaygroundLink
  cases componentMatch page.url <;> rfl

/-! ### Invariants of the classification loop -/

theorem cleanupTexts_exampleUrl (page : Page) :
    (cleanupTexts page).exampleUrl = page.exampleUrl := rfl

theorem createPageObject_exampleUrl (item : CseItem) :
    (createPageObject item).exampleUrl = none := rfl

/-- A classified page always carries an example link: the classification
test and `addExampleAndPlaygroundLink` consult the same unchanged URL. -/
theorem enrichComponentPageObject_exampleUrl_isSome (item : CseItem) (page : Page)
    (locale : String) (h : (componentMatch page.url).isSome = true) :
    ((enrichComponentPageObject item page locale).exampleUrl).isSome = true := by
  unfold enrichComponentPageObject
  rw [addExampleAndPlaygroundLink_exampleUrl, enrichTitle_url, enrichDescription_url]
  cases hm : componentMatch page.url with
  | some n => simp
  | none => rw [hm] at h; simp at h

def LoopInv (st : LoopState) : Prop :=
  (st.highlight = true → st.componentCount < MAX_HIGHLIGHT_COMPONENTS) ∧
  st.componentCount ≤ MAX_HIGHLIGHT_COMPONENTS ∧
  st.componentCount = st.components.length

theorem processItem_inv (locale : String) (st : LoopState) (i : Nat) (item : CseItem)
    (h : LoopInv st) : LoopInv (processItem locale st i item) := by
  obtain ⟨h1, h2, h3⟩ := h
  unfold processItem
  split
  · rename_i hcond
    have hlt : st.componentCount < MAX_HIGHLIGHT_COMPONENTS := h1 hcond.1
    refine ⟨?_, ?_, ?_⟩
    · intro hh
      simp only at hh
      by_cases hge : MAX_HIGHLIGHT_COMPONENTS ≤ st.componentCount + 1
      · rw [if_pos hge] at hh; cases hh
      · simp only [MAX_HIGHLIGHT_COMPONENTS] at hge ⊢; omega
    · simp only [MAX_HIGHLIGHT_COMPONENTS] at hlt ⊢; omega
    · simp [h3]
  · exact ⟨h1, h2, h3⟩

theorem runItems_inv (locale : String) :
    ∀ (items : List CseItem) (st : LoopState) (i : Nat),
      LoopInv st → LoopInv (runItems locale st i items) := by
  intro items
  induction items with
  | nil => intro st i h; exact h
  | cons item rest ih =>
    intro st i h
    simp only [runItems]
    exact ih _ _ (processItem_inv locale st i item h)

theorem processItem_not_highlight (locale : String) (st : LoopState) (i : Nat)
    (item : CseItem) (h : st.highlight = false) :
    processItem locale st i item =
      { st with pages := st.pages ++ [cleanupTexts (createPageObject item)] } := by
  unfold processItem
  rw [if_neg]
  intro hc
  rw [h] at hc
  cases hc.1

theorem runItems_highlight_false (locale : String) :
    ∀ (items : List CseItem) (st : LoopState) (i : Nat), st.highlight = false →
      (runItems locale st i items).components = st.components := by
  intro items
  induction items with
  | nil => intro st i _; rfl
  | cons item rest ih =>
    intro st i h
    simp only [runItems, processItem_not_highlight locale st i item h]
    exact ih _ _ h

theorem runItems_mem_components (locale : String) :
    ∀ (items : List CseItem) (st : LoopState) (i : Nat) (p : Page),
      p ∈ (runItems locale st i items).components →
      p ∈ st.components ∨
        ∃ item, item ∈ items.take (MAX_HIGHLIGHT_COMPONENT_INDEX + 1 - i) ∧
          (componentMatch (createPageObject item).url).isSome = true ∧
          p = cleanupTexts (enrichComponentPageObject item (createPageObject item) locale) := by
  intro items
  induction items with
  | nil => intro st i p h; left; exact h
  | cons item rest ih =>
    intro st i p h
    simp only [runItems] at h
    rcases ih _ _ p h with h1 | ⟨it, hmem, hcm, hp⟩
    · by_cases hc : st.highlight = true ∧ i ≤ MAX_HIGHLIGHT_COMPONENT_INDEX ∧
          (componentMatch (createPageObject item).url).isSome = true
      · have hpi : (processItem locale st i item).components = st.components ++
            [cleanupTexts (enrichComponentPageObject item (createPageObject item) locale)] := by
          unfold processItem; rw [if_pos hc]
        rw [hpi] at h1
        rcases List.mem_append.mp h1 with h2 | h2
        · left; exact h2
        · right
          refine ⟨item, ?_, hc.2.2, by simpa using h2⟩
          have hi : i ≤ MAX_HIGHLIGHT_COMPONENT_INDEX := hc.2.1
          obtain ⟨k, hk⟩ : ∃ k, MAX_HIGHLIGHT_COMPONENT_INDEX + 1 - i = k + 1 :=
            ⟨MAX_HIGHLIGHT_COMPONENT_INDEX - i, by omega⟩
          rw [hk, List.take_succ_cons]
          exact List.mem_cons_self item _
      · have hpi : (processItem locale st i item).components = st.components := by
          unfold processItem; rw [if_neg hc]
        rw [hpi] at h1
        left; exact h1
    · right
      refine ⟨it, ?_, hcm, hp⟩
      rcases Nat.eq_zero_or_pos (MAX_HIGHLIGHT_COMPONENT_INDEX + 1 - i) with h0 | hpos
      · have hz : MAX_HIGHLIGHT_COMPONENT_INDEX + 1 - (i + 1) = 0 := by omega
        rw [hz] at hmem
        simp at hmem
      · obtain ⟨k, hk⟩ : ∃ k, MAX_HIGHLIGHT_COMPONENT_INDEX + 1 - i = k + 1 :=
          ⟨MAX_HIGHLIGHT_COMPONENT_INDEX - i, by omega⟩
        have hk2 : MAX_HIGHLIGHT_COMPONENT_INDEX + 1 - (i + 1) = k := by omega
        rw [hk2] at hmem
        rw [hk, List.take_succ_cons]
        exact List.mem_cons_of_mem item hmem

theorem runItems_length (locale : String) :
    ∀ (items : List CseItem) (st : LoopState) (i : Nat),
      (runItems locale st i items).components.length +
          (runItems locale st i items).pages.length =
        st.components.length + st.pages.length + items.length := by
  intro items
  induction items with
  | nil => intro st i; simp [runItems]
  | cons item rest ih =>
    intro st i
    simp only [runItems]
    rw [ih]
    unfold processItem
    split <;> simp <;> omega

theorem runItems_pages_exampleUrl (locale : String) :
    ∀ (items : List CseItem) (st : LoopState) (i : Nat),
      (∀ p ∈ st.pages, p.exampleUrl = none) →
      ∀ p ∈ (runItems locale st i items).pages, p.exampleUrl = none := by
  intro items
  induction items with
  | nil => intro st i h; exact h
  | cons item rest ih =>
    intro st i h
    simp only [runItems]
    refine ih _ _ ?_
    intro p hp
    unfold processItem at hp
    split at hp
    · exact h p hp
    · simp only at hp
      rcases List.mem_append.mp hp with h2 | h2
      · exact h p h2
      · have : p = cleanupTexts (createPageObject item) := by simpa using h2
        rw [this, cleanupTexts_exampleUrl, createPageObject_exampleUrl]

theorem runItems_components_exampleUrl (locale : String) :
    ∀ (items : List CseItem) (st : LoopState) (i : Nat),
      (∀ p ∈ st.components, p.exampleUrl.isSome = true) →
      ∀ p ∈ (runItems locale st i items).components, p.exampleUrl.isSome = true := by
  intro items
  induction items with
  | nil => intro st i h; exact h
  | cons item rest ih =>
    intro st i h
    simp only [runItems]
    refine ih _ _ ?_
    intro p hp
    unfold processItem at hp
    split at hp
    · rename_i hcond
      simp only at hp
      rcases List.mem_append.mp hp with h2 | h2
      · exact h p h2
      · have hpe : p = cleanupTexts
            (enrichComponentPageObject item (createPageObject item) locale) := by
          simpa using h2
        rw [hpe, cleanupTexts_exampleUrl]
        exact enrichComponentPageObject_exampleUrl_isSome item _ locale hcond.2.2
    · exact h p hp

/-! ### Projections of `createResult` -/

theorem createResult_pageCount (totalResults : Nat) (page lastPage : Int)
    (components pages : List Page) (query locale : String) :
    (createResult totalResults page lastPage components pages query locale).result.pageCount
      = lastPage := by
  simp only [createResult]
  split_ifs <;> rfl

theorem createResult_components (totalResults : Nat) (page lastPage : Int)
    (components pages : List Page) (query locale : String) :
    (createResult totalResults page lastPage components pages query locale).result.components
      = components := by
  simp only [createResult]
  split_ifs <;> rfl

theorem createResult_pages (totalResults : Nat) (page lastPage : Int)
    (components pages : List Page) (query locale : String) :
    (createResult totalResults page lastPage components pages query locale).result.pages
      = pages := by
  simp only [createResult]
  split_ifs <;> rfl

theorem createResult_isTruncated (totalResults : Nat) (page lastPage : Int)
    (components pages : List Page) (query locale : String) :
    (createResult totalResults page lastPage components pages query locale).result.isTruncated
      = if page = LAST_PAGE ∧ LAST_PAGE < lastPage then some true else none := by
  simp only [createResult]
  split_ifs <;> rfl

theorem createResult_nextUrl (totalResults : Nat) (page lastPage : Int)
    (components pages : List Page) (query locale : String) :
    (createResult totalResults page lastPage components pages query locale).nextUrl
      = if page < lastPage ∧ page < LAST_PAGE then
          some (searchBaseUrl query locale ++ toString (page + 1))
        else none := by
  simp only [createResult]
  split_ifs <;> rfl

theorem createResult_prevUrl (totalResults : Nat) (page lastPage : Int)
    (components pages : List Page) (query locale : String) :
    (createResult totalResults page lastPage components pages query locale).prevUrl
      = if 1 < page then some (searchBaseUrl query locale ++ toString (page - 1))
        else none := by
  simp only [createResult]
  split_ifs <;> rfl

/-- The handler's successful run, in closed form: with a valid request and a
search client answering `r`, the response is the 200 envelope built from the
processed items and computed page count. -/
theorem handler_success (ev : Event) (r : CseResult) (pg : Int)
    (h1 : parsedPage ev = some pg) (h2 : ¬ pg < 1)
    (h3 : (parsedQuery ev).isEmpty = false) :
    handler ev (fun _ _ _ _ => SearchOutcome.success r) =
      { statusCode := 200,
        accessControlAllowOrigin := (ev.origin).getD "*",
        contentType := "application/json",
        cacheControl := "max-age=" ++ toString RESPONSE_MAX_AGE_SEARCH ++ ", immutable",
        body := HandlerBody.envelope (createResult r.searchInformation.totalResults pg
          (computePageCount r.searchInformation.totalResults)
          (if 0 < r.searchInformation.totalResults
            then processItems r.items pg (parsedLocale ev) else ([], [])).1
          (if 0 < r.searchInformation.totalResults
            then processItems r.items pg (parsedLocale ev) else ([], [])).2
          (parsedQuery ev) (parsedLocale ev)) } := by
  simp only [handler, h1]
  rw [if_neg (by simp [h2, h3])]

/-! ### Claim theorems -/

/-- The classification loop never collects more than 3 components; no item
is classified unless the requested page is 1; and every collected component
arises from an item within the first 8 of the batch whose URL matches the
component-reference-doc pattern, enriched and cleaned as the loop does. -/
theorem processItems_classification (items : List CseItem) (pg : Int) (locale : String) :
    (processItems items pg locale).1.length ≤ MAX_HIGHLIGHT_COMPONENTS ∧
    (pg ≠ 1 → (processItems items pg locale).1 = []) ∧
    ∀ p ∈ (processItems items pg locale).1,
      ∃ item, item ∈ items.take (MAX_HIGHLIGHT_COMPONENT_INDEX + 1) ∧
        (componentMatch (createPageObject item).url).isSome = true ∧
        p = cleanupTexts (enrichComponentPageObject item (createPageObject item) locale) := by
  refine ⟨?_, ?_, ?_⟩
  · have h := runItems_inv locale items
      { highlight := pg == 1, componentCount := 0, components := [], pages := [] } 0
      ⟨fun _ => by simp [MAX_HIGHLIGHT_COMPONENTS], by simp [MAX_HIGHLIGHT_COMPONENTS], rfl⟩
    obtain ⟨-, h2, h3⟩ := h
    simp only [processItems]
    rw [← h3]
    exact h2
  · intro hne
    have hbeq : (pg == 1) = false := beq_eq_false_iff_ne.mpr hne
    simp only [processItems]
    exact runItems_highlight_false locale items _ 0 hbeq
  · intro p hp
    simp only [processItems] at hp
    rcases runItems_mem_components locale items _ 0 p hp with h1 | ⟨it, hmem, hcm, hpe⟩
    · simp at h1
    · exact ⟨it, by simpa using hmem, hcm, hpe⟩

/-- C3: an invalid request (page `NaN`, page below 1, or empty trimmed
query) yields status 200 with the `error` JSON body carrying the offending
raw `q` and `page` values, and the search client is never consulted (the
response does not depend on it). -/
theorem handler_invalid_request (ev : Event) (h : requestInvalid ev = true) :
    ∀ f g, handler ev f = handler ev g ∧
      (handler ev f).statusCode = 200 ∧
      (handler ev f).body = HandlerBody.errorObj (invalidMsg ev) ∧
      ∃ pre mid post, invalidMsg ev =
        pre ++ jsShowOpt ev.q ++ mid ++ jsShowOpt ev.page ++ post := by
  have hh : ∀ fn, handler ev fn = invalidResponse ev := by
    intro fn
    unfold requestInvalid at h
    cases hp : parsedPage ev with
    | none => simp [handler, hp]
    | some pg =>
      rw [hp] at h
      simp only [Bool.or_eq_true, decide_eq_true_eq] at h
      simp only [handler, hp]
      rw [if_pos h]
  intro f g
  refine ⟨(hh f).trans (hh g).symm, ?_, ?_,
    "Invalid search params (q=", ", page=", ")", rfl⟩
  · rw [hh f]; rfl
  · rw [hh f]; rfl

/-- C3 witness: `q=""`, `page="0"` gives status 200, the error body, and a
search-independent response. -/
def badEvent : Event := { q := some "", page := some "0" }

def itemAmpList : CseItem :=
  { title := some "Documentation: amp-list",
    snippet := some "A dynamic list.",
    link := some "https://amp.dev/documentation/components/amp-list",
    pagemap := some { metatags := [[("twitter:description", "Dynamic content.")]] } }

def itemPlain : CseItem :=
  { title := some "Guide",
    snippet := some "Some guide.",
    link := some "https://amp.dev/about/websites" }

def demoResult : CseResult :=
  { searchInformation := { totalResults := 12 },
    items := [itemAmpList, itemPlain] }

def demoEvent : Event := { q := some "amp-list", locale := some "en", page := some "1" }

theorem handler_invalid_request_witness :
    handler badEvent (fun _ _ _ _ => SearchOutcome.failure "boom") =
        handler badEvent (fun _ _ _ _ => SearchOutcome.success demoResult) ∧
      (handler badEvent (fun _ _ _ _ => SearchOutcome.failure "boom")).statusCode = 200 ∧
      (handler badEvent (fun _ _ _ _ => SearchOutcome.failure "boom")).body =
        HandlerBody.errorObj (invalidMsg badEvent) ∧
      ∃ pre mid post, invalidMsg badEvent =
        pre ++ jsShowOpt badEvent.q ++ mid ++ jsShowOpt badEvent.page ++ post :=
  handler_invalid_request badEvent (by decide)
    (fun _ _ _ _ => SearchOutcome.failure "boom")
    (fun _ _ _ _ => SearchOutcome.success demoResult)

/-- C4: on every successful run the envelope's `pageCount` equals
`ceil(totalResults / 10)` exactly. -/
theorem handler_pageCount_eq_ceil (ev : Event) (r : CseResult) (pg : Int)
    (h1 : parsedPage ev = some pg) (h2 : ¬ pg < 1)
    (h3 : (parsedQuery ev).isEmpty = false) :
    ∃ env, (handler ev (fun _ _ _ _ => SearchOutcome.success r)).body =
        HandlerBody.envelope env ∧
      env.result.pageCount = ⌈(r.searchInformation.totalResults : ℚ) / 10⌉ := by
  rw [handler_success ev r pg h1 h2 h3]
  refine ⟨_, rfl, ?_⟩
  rw [createResult_pageCount]
  norm_num [computePageCount, PAGE_SIZE]

theorem handler_pageCount_witness :
    ∃ env, (handler demoEvent (fun _ _ _ _ => SearchOutcome.success demoResult)).body =
        HandlerBody.envelope env ∧
      env.result.pageCount = ⌈(demoResult.searchInformation.totalResults : ℚ) / 10⌉ :=
  handler_pageCount_eq_ceil demoEvent demoResult 1 (by decide) (by decide) (by decide)

/-- C5: the envelope's `isTruncated` field is present (with value `true`)
exactly when the current page is 10 and the computed page count exceeds 10;
otherwise the field is absent. -/
theorem handler_isTruncated_iff (ev : Event) (r : CseResult) (pg : Int)
    (h1 : parsedPage ev = some pg) (h2 : ¬ pg < 1)
    (h3 : (parsedQuery ev).isEmpty = false) :
    ∃ env, (handler ev (fun _ _ _ _ => SearchOutcome.success r)).body =
        HandlerBody.envelope env ∧
      (env.result.isTruncated = some true ↔
        pg = 10 ∧ 10 < computePageCount r.searchInformation.totalResults) ∧
      (¬(pg = 10 ∧ 10 < computePageCount r.searchInformation.totalResults) →
        env.result.isTruncated = none) := by
  rw [handler_success ev r pg h1 h2 h3]
  refine ⟨_, rfl, ?_, ?_⟩
  · rw [createResult_isTruncated]
    simp only [LAST_PAGE, MAX_PAGE]
    split_ifs with hc
    · simp [hc]
    · simp [hc]
  · intro hnc
    rw [createResult_isTruncated]
    simp only [LAST_PAGE, MAX_PAGE]
    rw [if_neg hnc]

def demoEventPage10 : Event := { q := some "amp-list", locale := some "en", page := some "10" }

def demoResultLarge : CseResult :=
  { searchInformation := { totalResults := 105 }, items := [itemAmpList, itemPlain] }

theorem handler_isTruncated_witness :
    ∃ env, (handler demoEventPage10
        (fun _ _ _ _ => SearchOutcome.success demoResultLarge)).body =
        HandlerBody.envelope env ∧
      (env.result.isTruncated = some true ↔
        (10 : Int) = 10 ∧ 10 < computePageCount demoResultLarge.searchInformation.totalResults) ∧
      (¬((10 : Int) = 10 ∧ 10 < computePageCount demoResultLarge.searchInformation.totalResults) →
        env.result.isTruncated = none) :=
  handler_isTruncated_iff demoEventPage10 demoResultLarge 10 (by decide) (by decide) (by decide)

/-- C6: `nextUrl` is present exactly when the current page is below both the
computed page count and 10, with value `/search/do?q=...&locale=...&page=`
followed by `page + 1`; `prevUrl` is present exactly when the page exceeds 1,
with the same base and `page - 1`. -/
theorem handler_nextUrl_prevUrl (ev : Event) (r : CseResult) (pg : Int)
    (h1 : parsedPage ev = some pg) (h2 : ¬ pg < 1)
    (h3 : (parsedQuery ev).isEmpty = false) :
    ∃ env, (handler ev (fun _ _ _ _ => SearchOutcome.success r)).body =
        HandlerBody.envelope env ∧
      (env.nextUrl =
        if pg < computePageCount r.searchInformation.totalResults ∧ pg < 10 then
          some ("/search/do?q=" ++ encodeURIComponent (parsedQuery ev) ++
            "&locale=" ++ encodeURIComponent (parsedLocale ev) ++ "&page=" ++
            toString (pg + 1))
        else none) ∧
      (env.prevUrl =
        if 1 < pg then
          some ("/search/do?q=" ++ encodeURIComponent (parsedQuery ev) ++
            "&locale=" ++ encodeURIComponent (parsedLocale ev) ++ "&page=" ++
            toString (pg - 1))
        else none) := by
  rw [handler_success ev r pg h1 h2 h3]
  refine ⟨_, rfl, ?_, ?_⟩
  · rw [createResult_nextUrl]
    simp only [LAST_PAGE, MAX_PAGE, searchBaseUrl]
  · rw [createResult_prevUrl]
    simp only [searchBaseUrl]

def demoEventPage2 : Event := { q := some "amp-list", locale := some "en", page := some "2" }

theorem handler_nextUrl_prevUrl_witness :
    ∃ env, (handler demoEventPage2
        (fun _ _ _ _ => SearchOutcome.success demoResultLarge)).body =
        HandlerBody.envelope env ∧
      (env.nextUrl =
        if (2 : Int) < computePageCount demoResultLarge.searchInformation.totalResults ∧
            (2 : Int) < 10 then
          some ("/search/do?q=" ++ encodeURIComponent (parsedQuery demoEventPage2) ++
            "&locale=" ++ encodeURIComponent (parsedLocale demoEventPage2) ++ "&page=" ++
            toString ((2 : Int) + 1))
        else none) ∧
      (env.prevUrl =
        if (1 : Int) < 2 then
          some ("/search/do?q=" ++ encodeURIComponent (parsedQuery demoEventPage2) ++
            "&locale=" ++ encodeURIComponent (parsedLocale demoEventPage2) ++ "&page=" ++
            toString ((2 : Int) - 1))
        else none) :=
  handler_nextUrl_prevUrl demoEventPage2 demoResultLarge 2 (by decide) (by decide) (by decide)

/-- C7: for a non-default locale the hidden query carries the default
locale's clause and the request locale's clause joined by `OR`, the language
filter is disabled and no `lr` parameter reaches the outbound URL (the `hq`
parameter carries the hidden query); for the default locale `en` the hidden
query is the single clause and `lr=lang_en` is set. -/
theorem locale_scoping (query locale : String) (pg : Int) (apiKey : String) :
    (locale ≠ DEFAULT_LOCALE →
      (buildSearchOptions locale).hiddenQuery =
        localeClause DEFAULT_LOCALE ++ " OR " ++ localeClause locale ∧
      (buildSearchOptions locale).noLanguageFilter = true ∧
      List.lookup "lr"
        (buildSearchParams query locale pg (buildSearchOptions locale) apiKey) = none ∧
      List.lookup "hq"
        (buildSearchParams query locale pg (buildSearchOptions locale) apiKey) =
        some (localeClause DEFAULT_LOCALE ++ " OR " ++ localeClause locale)) ∧
    (locale = DEFAULT_LOCALE →
      (buildSearchOptions locale).hiddenQuery = localeClause DEFAULT_LOCALE ∧
      (buildSearchOptions locale).noLanguageFilter = false ∧
      List.lookup "lr"
        (buildSearchParams query locale pg (buildSearchOptions locale) apiKey) =
        some "lang_en" ∧
      List.lookup "hq"
        (buildSearchParams query locale pg (buildSearchOptions locale) apiKey) =
        some (localeClause DEFAULT_LOCALE)) := by
  constructor
  · intro hne
    have hopts : buildSearchOptions locale =
        { hiddenQuery := localeClause DEFAULT_LOCALE ++ " OR " ++ localeClause locale,
          noLanguageFilter := true } := by
      simp only [buildSearchOptions]
      rw [if_pos hne]
    refine ⟨by rw [hopts], by rw [hopts], ?_, ?_⟩
    · rw [hopts]
      simp [buildSearchParams, List.lookup, localeClause, DEFAULT_LOCALE]
    · rw [hopts]
      simp [buildSearchParams, List.lookup, localeClause, DEFAULT_LOCALE]
  · intro heq
    subst heq
    have hopts : buildSearchOptions DEFAULT_LOCALE =
        { hiddenQuery := localeClause DEFAULT_LOCALE, noLanguageFilter := false } := by
      simp [buildSearchOptions]
    refine ⟨by rw [hopts], by rw [hopts], ?_, ?_⟩
    · rw [hopts]
      simp [buildSearchParams, List.lookup, localeClause, DEFAULT_LOCALE]
    · rw [hopts]
      simp [buildSearchParams, List.lookup, localeClause, DEFAULT_LOCALE]

/-- C8: the search client fails in exactly two ways.  With a falsy API key
it fails with the configuration message and the same result for every HTTP
layer (no network call); with a key, a non-ok HTTP response gives the fixed
generic message (independent of the response's status and body), and an ok
response returns the parsed JSON unchanged. -/
theorem search_client_contract (apiKey query locale : String) (pg : Int)
    (options : SearchOptions)
    (fetch fetch2 : List (String × String) → FetchResponse) :
    (apiKey.isEmpty = true →
      search apiKey query locale pg options fetch = (Except.error apiKeyErrorMsg, false) ∧
      search apiKey query locale pg options fetch =
        search apiKey query locale pg options fetch2) ∧
    (apiKey.isEmpty = false →
      ((fetch (buildSearchParams query locale pg options apiKey)).ok = true →
        search apiKey query locale pg options fetch =
          (Except.ok (fetch (buildSearchParams query locale pg options apiKey)).json,
            true)) ∧
      ((fetch (buildSearchParams query locale pg options apiKey)).ok = false →
        search apiKey query locale pg options fetch =
          (Except.error invalidResponseMsg, true))) := by
  constructor
  · intro hk
    simp only [search]
    rw [if_pos hk, if_pos hk]
    exact ⟨rfl, rfl⟩
  · intro hk
    constructor <;> intro hok <;> simp only [search] <;>
      rw [if_neg (by simp [hk])] <;> simp [hok]

/-- C9: enrichment of a classified page: the description becomes the item's
truthy `twitter:description` meta tag value when there is one, and is kept
otherwise; the title is cut to the trimmed text after its last colon exactly
when that colon sits past position 0 with at least one character after it;
and when the URL matches the component pattern the example and playground
links are set to `/{locale}/documentation/examples/?q={componentName}` and
`https://playground.amp.dev/#url={urlencoded url}` (otherwise left as they
were). -/
theorem enrichment_behaviour (item : CseItem) (page : Page) (locale : String) :
    (enrichComponentPageObject item page locale).description =
      (getCseItemMetaTagValue item DESCRIPTION_META_TAG).getD page.description ∧
    (enrichComponentPageObject item page locale).title =
      (if 0 < jsLastIndexOf page.title ':' ∧
          jsLastIndexOf page.title ':' + 1 < (page.title.length : Int) then
        jsTrim (String.mk (page.title.data.drop ((jsLastIndexOf page.title ':').toNat + 1)))
      else page.title) ∧
    (enrichComponentPageObject item page locale).exampleUrl =
      (match componentMatch page.url with
        | some componentName =>
          some ("/" ++ locale ++ "/documentation/examples/?q=" ++ componentName)
        | none => page.exampleUrl) ∧
    (enrichComponentPageObject item page locale).playgroundUrl =
      (match componentMatch page.url with
        | some _ =>
          some ("https://playground.amp.dev/#url=" ++ encodeURIComponent page.url)
        | none => page.playgroundUrl) := by
  refine ⟨?_, ?_, ?_, ?_⟩
  · unfold enrichComponentPageObject
    rw [addExampleAndPlaygroundLink_description, enrichTitle_description,
      enrichDescription_description]
  · unfold enrichComponentPageObject
    rw [addExampleAndPlaygroundLink_title, enrichTitle_title, enrichDescription_title]
  · unfold enrichComponentPageObject
    rw [addExampleAndPlaygroundLink_exampleUrl, enrichTitle_url, enrichDescription_url,
      enrichTitle_exampleUrl, enrichDescription_exampleUrl]
  · unfold enrichComponentPageObject
    rw [addExampleAndPlaygroundLink_playgroundUrl, enrichTitle_url, enrichDescription_url,
      enrichTitle_playgroundUrl, enrichDescription_playgroundUrl]

/-- C10: on a successful run with `totalResults > 0`, every raw item yields
exactly one Page, pushed into exactly one of the two buckets: the lengths of
`components` and `pages` sum to the number of raw items, and no Page appears
in both (components always carry `exampleUrl`, plain pages never do). -/
theorem handler_partition (ev : Event) (r : CseResult) (pg : Int)
    (h1 : parsedPage ev = some pg) (h2 : ¬ pg < 1)
    (h3 : (parsedQuery ev).isEmpty = false)
    (htr : 0 < r.searchInformation.totalResults) :
    ∃ env, (handler ev (fun _ _ _ _ => SearchOutcome.success r)).body =
        HandlerBody.envelope env ∧
      env.result.components.length + env.result.pages.length = r.items.length ∧
      ∀ p ∈ env.result.components, p ∉ env.result.pages := by
  rw [handler_success ev r pg h1 h2 h3]
  refine ⟨_, rfl, ?_, ?_⟩
  · rw [createResult_components, createResult_pages]
    simp only [if_pos htr, processItems]
    simpa using runItems_length (parsedLocale ev) r.items
      { highlight := pg == 1, componentCount := 0, components := [], pages := [] } 0
  · rw [createResult_components, createResult_pages]
    simp only [if_pos htr, processItems]
    intro p hp hq
    have hcomp := runItems_components_exampleUrl (parsedLocale ev) r.items
      { highlight := pg == 1, componentCount := 0, components := [], pages := [] } 0
      (by intro q hq2; simp at hq2) p hp
    have hpage := runItems_pages_exampleUrl (parsedLocale ev) r.items
      { highlight := pg == 1, componentCount := 0, components := [], pages := [] } 0
      (by intro q hq2; simp at hq2) p hq
    rw [hpage] at hcomp
    cases hcomp

theorem handler_partition_witness :
    ∃ env, (handler demoEvent (fun _ _ _ _ => SearchOutcome.success demoResult)).body =
        HandlerBody.envelope env ∧
      env.result.components.length + env.result.pages.length =
        demoResult.items.length ∧
      ∀ p ∈ env.result.components, p ∉ env.result.pages :=
  handler_partition demoEvent demoResult 1 (by decide) (by decide) (by decide) (by decide)

/-- C2: on every handler run the envelope's `components` array has at most 3
entries; it is empty unless the requested page is 1; and each entry arises
from an item at index at most 7 of the returned batch whose URL matches the
component-reference-doc pattern (classification stopping once 3 components
are collected is what bounds the count). -/
theorem handler_components_invariant (ev : Event) (r : CseResult) (pg : Int)
    (h1 : parsedPage ev = some pg) (h2 : ¬ pg < 1)
    (h3 : (parsedQuery ev).isEmpty = false) :
    ∃ env, (handler ev (fun _ _ _ _ => SearchOutcome.success r)).body =
        HandlerBody.envelope env ∧
      env.result.components.length ≤ MAX_HIGHLIGHT_COMPONENTS ∧
      (pg ≠ 1 → env.result.components = []) ∧
      ∀ p ∈ env.result.components,
        ∃ item, item ∈ r.items.take (MAX_HIGHLIGHT_COMPONENT_INDEX + 1) ∧
          (componentMatch (createPageObject item).url).isSome = true ∧
          p = cleanupTexts
            (enrichComponentPageObject item (createPageObject item) (parsedLocale ev)) := by
  rw [handler_success ev r pg h1 h2 h3]
  by_cases htr : 0 < r.searchInformation.totalResults
  · refine ⟨_, rfl, ?_, ?_, ?_⟩
    · rw [createResult_components]
      simp only [if_pos htr]
      exact (processItems_classification r.items pg (parsedLocale ev)).1
    · intro hne
      rw [createResult_components]
      simp only [if_pos htr]
      exact (processItems_classification r.items pg (parsedLocale ev)).2.1 hne
    · intro p hp
      rw [createResult_components] at hp
      simp only [if_pos htr] at hp
      exact (processItems_classification r.items pg (parsedLocale ev)).2.2 p hp
  · refine ⟨_, rfl, ?_, ?_, ?_⟩ <;> rw [createResult_components] <;>
      simp [if_neg htr]

theorem handler_components_invariant_witness :
    ∃ env, (handler demoEvent (fun _ _ _ _ => SearchOutcome.success demoResult)).body =
        HandlerBody.envelope env ∧
      env.result.components.length ≤ MAX_HIGHLIGHT_COMPONENTS ∧
      ((1 : Int) ≠ 1 → env.result.components = []) ∧
      ∀ p ∈ env.result.components,
        ∃ item, item ∈ demoResult.items.take (MAX_HIGHLIGHT_COMPONENT_INDEX + 1) ∧
          (componentMatch (createPageObject item).url).isSome = true ∧
          p = cleanupTexts (enrichComponentPageObject item (createPageObject item)
            (parsedLocale demoEvent)) :=
  handler_components_invariant demoEvent demoResult 1 (by decide) (by decide) (by decide)
